import Mathlib

/-!
Verification of the binary loader in ch4/inc/loader.cpp.

The loader normalizes two external parsing libraries (libelfmaster and BFD)
into one in-memory representation.  The two libraries are opaque collaborators:
we model the facts each one reports for a given file as plain input structures
(an elf object descriptor, a bfd handle descriptor), and translate every
function of loader.cpp into a pure state transformer on a Binary record,
returning the C result code (an Int, 0 on success and -1 on failure) together
with the updated Binary.
-/

namespace Loader

/-- Binary::BinaryType, as used in loader.cpp (BIN_TYPE_AUTO, BIN_TYPE_ELF,
BIN_TYPE_PE). -/
inductive BinaryType
  | BIN_TYPE_AUTO
  | BIN_TYPE_ELF
  | BIN_TYPE_PE
deriving DecidableEq, Repr

/-- Binary::BinaryArch, as used in loader.cpp (ARCH_X86); ARCH_NONE stands for
the default value of a Binary that has not been loaded yet. -/
inductive BinaryArch
  | ARCH_NONE
  | ARCH_X86
deriving DecidableEq, Repr

/-- Section::SectionType, as used in loader.cpp (SEC_TYPE_NONE, SEC_TYPE_CODE,
SEC_TYPE_DATA). -/
inductive SectionType
  | SEC_TYPE_NONE
  | SEC_TYPE_CODE
  | SEC_TYPE_DATA
deriving DecidableEq, Repr

/-- Symbol::SymbolType, as used in loader.cpp (SYM_TYPE_FUNC); SYM_TYPE_UKN
stands for the default value before assignment. -/
inductive SymbolType
  | SYM_TYPE_UKN
  | SYM_TYPE_FUNC
deriving DecidableEq, Repr

/-- A Symbol as populated by loader.cpp: type, name and address. -/
structure Symbol where
  type : SymbolType
  name : String
  addr : Nat
deriving DecidableEq, Repr

/-- A Section as populated by loader.cpp.  The binary field is the non-owning
back pointer to the owning Binary, modelled as an opaque address tag; bytes is
the owned byte buffer, none when the buffer pointer is NULL. -/
structure Section where
  binary : Nat
  name : String
  type : SectionType
  vma : Nat
  size : Nat
  bytes : Option (List Nat)
deriving DecidableEq, Repr

/-- The Binary record populated by loader.cpp: filename, type, type_str,
entry, arch, arch_str, bits, sections and symbols. -/
structure Binary where
  filename : String
  type : BinaryType
  type_str : String
  entry : Nat
  arch : BinaryArch
  arch_str : String
  bits : Nat
  sections : List Section
  symbols : List Symbol
deriving DecidableEq, Repr

/-- A caller-constructed Binary before any load (the Binary is created empty
by the dispatcher caller; loader.hpp defaults modelled as zero values). -/
def emptyBinary : Binary :=
  { filename := "", type := BinaryType.BIN_TYPE_AUTO, type_str := "", entry := 0,
    arch := BinaryArch.ARCH_NONE, arch_str := "", bits := 0,
    sections := [], symbols := [] }

/-! ### Constants of the external libraries (values from elf.h and bfd.h) -/

/-- ELF symbol type STT_FUNC. -/
def STT_FUNC : Nat := 2
/-- ELF section type SHT_NOBITS. -/
def SHT_NOBITS : Nat := 8
/-- ELF section flag SHF_ALLOC. -/
def SHF_ALLOC : Nat := 2
/-- ELF section flag SHF_EXECINSTR. -/
def SHF_EXECINSTR : Nat := 4
/-- BFD symbol flag BSF_FUNCTION. -/
def BSF_FUNCTION : Nat := 16
/-- BFD section flag SEC_CODE. -/
def SEC_CODE : Nat := 16
/-- BFD section flag SEC_DATA. -/
def SEC_DATA : Nat := 32
/-- BFD machine value bfd_mach_i386_i386. -/
def bfd_mach_i386_i386 : Nat := 1
/-- BFD machine value bfd_mach_x86_64. -/
def bfd_mach_x86_64 : Nat := 64

/-- The byte buffer produced by copying n bytes out of the source memory that
backs a section (memcpy and bfd_get_section_contents always transfer exactly
the declared size; bytes beyond the recorded content read as 0). -/
def copyBytes (n : Nat) (data : List Nat) : List Nat :=
  (List.range n).map (fun i => data.getD i 0)

/-- The loop body shared by the rollback blocks of load_sections_bfd and
load_sections_lem and by unload_binary: for every section, if bytes is
non-null, free it and set it to NULL. -/
def releaseSections (secs : List Section) : List Section :=
  secs.map (fun s => if s.bytes.isSome then { s with bytes := none } else s)

/-- unload_binary (loader.cpp lines 39-48): frees every non-null section byte
buffer and nulls the pointer. -/
def unload_binary (bin : Binary) : Binary :=
  { bin with sections := releaseSections bin.sections }

/-! ### Backend A: libelfmaster -/

/-- One entry yielded by a libelfmaster symbol iterator: the symbol type
(compared against STT_FUNC), name and value. -/
structure LemSymbol where
  stype : Nat
  name : String
  value : Nat
deriving DecidableEq, Repr

/-- One entry yielded by the libelfmaster section iterator, together with the
outcome of the malloc the loader performs for it.  stype is the ELF section
type (checked against SHT_NOBITS), flags the ELF section flags, name the
possibly-NULL name pointer, data the section content behind
elf_section_pointer, and allocOk whether malloc of a buffer of the declared
size succeeds during this load. -/
structure LemSection where
  stype : Nat
  flags : Nat
  name : Option String
  address : Nat
  size : Nat
  data : List Nat
  allocOk : Bool
deriving DecidableEq, Repr

/-- libelfmaster architecture enum elf_arch (i386, x64, unsupported). -/
inductive ElfArch
  | i386
  | x64
  | unsupported
deriving DecidableEq, Repr

/-- The facts libelfmaster reports for an opened object: entry point,
architecture, the ELF_SYMTAB_F / ELF_DYNSYM_F / ELF_SHDRS_F flag bits, the
entries each symbol iterator yields before it stops (symtabErr records
whether the iterator stopped with ELF_ITER_ERROR rather than ELF_ITER_DONE),
and the entries of the section iterator. -/
structure Elfobj where
  entry : Nat
  arch : ElfArch
  hasSymtab : Bool
  symtab : List LemSymbol
  symtabErr : Bool
  hasDynsym : Bool
  dynsym : List LemSymbol
  dynsymErr : Bool
  hasShdrs : Bool
  sections : List LemSection
deriving DecidableEq, Repr

/-- The outcome of elf_open_object for a given path: none when it returns
false, some obj when it succeeds. -/
structure LemWorld where
  openResult : Option Elfobj
deriving DecidableEq, Repr

/-- The while loop of load_symbols_lem / load_dynsym_lem (loader.cpp lines
387-396 and 412-421): push a Symbol for every entry whose type is STT_FUNC. -/
def lemSymLoop (entries : List LemSymbol) (bin : Binary) : Binary :=
  match entries with
  | [] => bin
  | s :: rest =>
    if s.stype = STT_FUNC then
      lemSymLoop rest { bin with symbols := bin.symbols ++
        [{ type := SymbolType.SYM_TYPE_FUNC, name := s.name, addr := s.value }] }
    else
      lemSymLoop rest bin

/-- load_symbols_lem (loader.cpp lines 376-399): returns 0 immediately when
the ELF_SYMTAB_F flag is absent, otherwise iterates the static symbol table,
keeping STT_FUNC entries; always returns 0. -/
def load_symbols_lem (obj : Elfobj) (bin : Binary) : Int × Binary :=
  if obj.hasSymtab = false then (0, bin)
  else (0, lemSymLoop obj.symtab bin)

/-- load_dynsym_lem (loader.cpp lines 401-424): same as load_symbols_lem on
the dynamic symbol table. -/
def load_dynsym_lem (obj : Elfobj) (bin : Binary) : Int × Binary :=
  if obj.hasDynsym = false then (0, bin)
  else (0, lemSymLoop obj.dynsym bin)

/-- The section classification of load_sections_lem (loader.cpp lines
443-449): CODE when SHF_EXECINSTR is set, else DATA when SHF_ALLOC is set,
else NONE (skipped). -/
def lemSecType (ls : LemSection) : SectionType :=
  if Nat.land ls.flags SHF_EXECINSTR ≠ 0 then SectionType.SEC_TYPE_CODE
  else if Nat.land ls.flags SHF_ALLOC ≠ 0 then SectionType.SEC_TYPE_DATA
  else SectionType.SEC_TYPE_NONE

/-- The Section record load_sections_lem builds and pushes for a retained
source section (loader.cpp lines 451-468). -/
def mkLemSec (ptr : Nat) (ls : LemSection) : Section :=
  { binary := ptr, name := ls.name.getD "<unnamed>", type := lemSecType ls,
    vma := ls.address, size := ls.size,
    bytes := some (copyBytes ls.size ls.data) }

/-- The while loop of load_sections_lem (loader.cpp lines 437-469, with the
fail block of lines 473-481): skip SHT_NOBITS sections and sections that are
neither executable nor allocated; on malloc failure, free the bytes of every
section of the Binary and return -1; otherwise push the populated Section. -/
def lemSecLoop (ptr : Nat) (secs : List LemSection) (bin : Binary) : Int × Binary :=
  match secs with
  | [] => (0, bin)
  | ls :: rest =>
    if ls.stype = SHT_NOBITS then
      lemSecLoop ptr rest bin
    else if lemSecType ls = SectionType.SEC_TYPE_NONE then
      lemSecLoop ptr rest bin
    else if ls.allocOk = false then
      (-1, { bin with sections := releaseSections bin.sections })
    else
      lemSecLoop ptr rest { bin with sections := bin.sections ++ [mkLemSec ptr ls] }

/-- load_sections_lem (loader.cpp lines 426-482): returns 0 immediately when
the ELF_SHDRS_F flag is absent, otherwise runs the section loop. -/
def load_sections_lem (ptr : Nat) (obj : Elfobj) (bin : Binary) : Int × Binary :=
  if obj.hasShdrs = false then (0, bin)
  else lemSecLoop ptr obj.sections bin

/-- The part of load_binary_lem after the architecture switch (loader.cpp
lines 358-373): best-effort symbol loads with their results discarded, then
load_sections_lem whose failure fails the whole call. -/
def lemAfterArch (ptr : Nat) (obj : Elfobj) (bin : Binary) : Int × Binary :=
  let bin1 := (load_symbols_lem obj bin).2
  let bin2 := (load_dynsym_lem obj bin1).2
  let r := load_sections_lem ptr obj bin2
  if r.1 < 0 then (-1, r.2) else (0, r.2)

/-- load_binary_lem (loader.cpp lines 320-374): open the object in forensics
mode (failure returns -1 with the Binary untouched), record filename, type,
entry and the placeholder type_str, switch on the architecture (i386 and x64
are supported overwriting arch_str, arch and bits; anything else fails with
the metadata already written), then symbols and sections. -/
def load_binary_lem (ptr : Nat) (w : LemWorld) (fname : String) (bin : Binary) : Int × Binary :=
  match w.openResult with
  | none => (-1, bin)
  | some obj =>
    let bin1 := { bin with filename := fname, type := BinaryType.BIN_TYPE_ELF,
                           entry := obj.entry, type_str := "unknown" }
    match obj.arch with
    | ElfArch.i386 =>
      lemAfterArch ptr obj
        { bin1 with arch_str := "X86", arch := BinaryArch.ARCH_X86, bits := 32 }
    | ElfArch.x64 =>
      lemAfterArch ptr obj
        { bin1 with arch_str := "X86_64", arch := BinaryArch.ARCH_X86, bits := 64 }
    | ElfArch.unsupported => (-1, bin1)

/-! ### Backend B: BFD -/

/-- One entry of a canonicalized BFD symbol table: flags (checked against
BSF_FUNCTION), name, and value (bfd_asymbol_value). -/
structure BfdSymbol where
  flags : Nat
  name : String
  value : Nat
deriving DecidableEq, Repr

/-- The facts BFD reports when loader.cpp reads one symbol table: n is the
upper bound returned by bfd_get_symtab_upper_bound (negative on error),
allocOk whether the malloc of that many bytes succeeds, and canon the result
of canonicalization (none when it returns a negative count). -/
structure BfdSymtabRead where
  n : Int
  allocOk : Bool
  canon : Option (List BfdSymbol)
deriving DecidableEq, Repr

/-- One BFD section, together with the outcomes of the malloc and of
bfd_get_section_contents that the loader performs for it. -/
structure BfdSection where
  flags : Nat
  name : Option String
  vma : Nat
  size : Nat
  contents : List Nat
  allocOk : Bool
  readOk : Bool
deriving DecidableEq, Repr

/-- bfd_flavour values distinguished by loader.cpp: elf, coff, unknown and
every other flavour value. -/
inductive BfdFlavour
  | elf
  | coff
  | unknown
  | other
deriving DecidableEq, Repr

/-- The facts BFD reports for an opened handle: start address, target name,
flavour, machine value and printable name of the arch info, the two symbol
table reads and the section list. -/
structure Bfd where
  startAddress : Nat
  xvecName : String
  flavour : BfdFlavour
  mach : Nat
  printableName : String
  symtab : BfdSymtabRead
  dynsym : BfdSymtabRead
  sections : List BfdSection
deriving DecidableEq, Repr

/-- The outcome of the BFD open path for a given file: whether bfd_openr and
bfd_check_format succeed, and the handle facts. -/
structure BfdWorld where
  openrOk : Bool
  checkFormatOk : Bool
  handle : Bfd
deriving DecidableEq, Repr

/-- open_bfd (loader.cpp lines 50-87): NULL when bfd_openr fails, when
bfd_check_format rejects the file, or when the flavour is unknown. -/
def open_bfd (w : BfdWorld) : Option Bfd :=
  if w.openrOk = false then none
  else if w.checkFormatOk = false then none
  else if w.handle.flavour = BfdFlavour.unknown then none
  else some w.handle

/-- The for loop of load_symbols_bfd / load_dynsym_bfd (loader.cpp lines
118-126 and 170-178): push a Symbol for every entry with BSF_FUNCTION set. -/
def bfdSymLoop (entries : List BfdSymbol) (bin : Binary) : Binary :=
  match entries with
  | [] => bin
  | e :: rest =>
    if Nat.land e.flags BSF_FUNCTION ≠ 0 then
      bfdSymLoop rest { bin with symbols := bin.symbols ++
        [{ type := SymbolType.SYM_TYPE_FUNC, name := e.name, addr := e.value }] }
    else
      bfdSymLoop rest bin

/-- load_symbols_bfd (loader.cpp lines 89-139): fail (-1) when the upper
bound is negative, when the table is non-empty and malloc fails, or when
canonicalization fails; a zero upper bound skips the table; otherwise push
the BSF_FUNCTION entries and return 0. -/
def load_symbols_bfd (st : BfdSymtabRead) (bin : Binary) : Int × Binary :=
  if st.n < 0 then (-1, bin)
  else if st.n = 0 then (0, bin)
  else if st.allocOk = false then (-1, bin)
  else
    match st.canon with
    | none => (-1, bin)
    | some entries => (0, bfdSymLoop entries bin)

/-- load_dynsym_bfd (loader.cpp lines 141-191): same shape as
load_symbols_bfd on the dynamic symbol table read. -/
def load_dynsym_bfd (st : BfdSymtabRead) (bin : Binary) : Int × Binary :=
  if st.n < 0 then (-1, bin)
  else if st.n = 0 then (0, bin)
  else if st.allocOk = false then (-1, bin)
  else
    match st.canon with
    | none => (-1, bin)
    | some entries => (0, bfdSymLoop entries bin)

/-- The section classification of load_sections_bfd (loader.cpp lines
206-213): CODE when SEC_CODE is set, else DATA when SEC_DATA is set, else
NONE (skipped). -/
def bfdSecType (bs : BfdSection) : SectionType :=
  if Nat.land bs.flags SEC_CODE ≠ 0 then SectionType.SEC_TYPE_CODE
  else if Nat.land bs.flags SEC_DATA ≠ 0 then SectionType.SEC_TYPE_DATA
  else SectionType.SEC_TYPE_NONE

/-- The fully populated Section load_sections_bfd leaves in the Binary for a
retained source section when both malloc and the content read succeed
(loader.cpp lines 215-239). -/
def mkBfdSec (ptr : Nat) (bs : BfdSection) : Section :=
  { binary := ptr, name := bs.name.getD "<unnamed>", type := bfdSecType bs,
    vma := bs.vma, size := bs.size,
    bytes := some (copyBytes bs.size bs.contents) }

/-- The partially populated Section present in the Binary at the moment a
failure is detected for it in load_sections_bfd: the record is pushed before
the buffer is filled, so on malloc failure its bytes are NULL and on read
failure they are the freshly allocated (unspecified, modelled as zero)
buffer of the declared size. -/
def mkBfdSecFailed (ptr : Nat) (bs : BfdSection) : Section :=
  { binary := ptr, name := bs.name.getD "<unnamed>", type := bfdSecType bs,
    vma := bs.vma, size := bs.size,
    bytes := if bs.allocOk then some (List.replicate bs.size 0) else none }

/-- The for loop of load_sections_bfd (loader.cpp lines 203-240, with the
fail block of lines 244-252): skip sections that are neither SEC_CODE nor
SEC_DATA; push the Section record, then on malloc or content-read failure
free the bytes of every section of the Binary and return -1. -/
def bfdSecLoop (ptr : Nat) (secs : List BfdSection) (bin : Binary) : Int × Binary :=
  match secs with
  | [] => (0, bin)
  | bs :: rest =>
    if bfdSecType bs = SectionType.SEC_TYPE_NONE then
      bfdSecLoop ptr rest bin
    else if bs.allocOk = false ∨ bs.readOk = false then
      (-1, { bin with sections :=
        releaseSections (bin.sections ++ [mkBfdSecFailed ptr bs]) })
    else
      bfdSecLoop ptr rest { bin with sections := bin.sections ++ [mkBfdSec ptr bs] }

/-- load_sections_bfd (loader.cpp lines 193-253). -/
def load_sections_bfd (ptr : Nat) (h : Bfd) (bin : Binary) : Int × Binary :=
  bfdSecLoop ptr h.sections bin

/-- The part of load_binary_bfd after the architecture switch (loader.cpp
lines 302-317): best-effort symbol loads with their results discarded, then
load_sections_bfd whose failure fails the whole call. -/
def bfdAfterArch (ptr : Nat) (h : Bfd) (bin : Binary) : Int × Binary :=
  let bin1 := (load_symbols_bfd h.symtab bin).2
  let bin2 := (load_dynsym_bfd h.dynsym bin1).2
  let r := load_sections_bfd ptr h bin2
  if r.1 < 0 then (-1, r.2) else (0, r.2)

/-- The architecture switch of load_binary_bfd (loader.cpp lines 285-300):
arch_str is written before the switch, then bfd_mach_i386_i386 and
bfd_mach_x86_64 set arch and bits while any other machine fails. -/
def bfdAfterType (ptr : Nat) (h : Bfd) (bin : Binary) : Int × Binary :=
  let bin1 := { bin with arch_str := h.printableName }
  if h.mach = bfd_mach_i386_i386 then
    bfdAfterArch ptr h { bin1 with arch := BinaryArch.ARCH_X86, bits := 32 }
  else if h.mach = bfd_mach_x86_64 then
    bfdAfterArch ptr h { bin1 with arch := BinaryArch.ARCH_X86, bits := 64 }
  else
    (-1, bin1)

/-- load_binary_bfd (loader.cpp lines 255-318): open_bfd failure returns -1
with the Binary untouched; then filename, entry and type_str are written, the
flavour switch maps elf to BIN_TYPE_ELF and coff to BIN_TYPE_PE and fails on
anything else, then the architecture switch, symbols and sections.  The type
parameter is received but never used, exactly as in the source. -/
def load_binary_bfd (ptr : Nat) (w : BfdWorld) (fname : String) (bin : Binary)
    (_btype : BinaryType) : Int × Binary :=
  match open_bfd w with
  | none => (-1, bin)
  | some h =>
    let bin1 := { bin with filename := fname, entry := h.startAddress,
                           type_str := h.xvecName }
    match h.flavour with
    | BfdFlavour.elf =>
      bfdAfterType ptr h { bin1 with type := BinaryType.BIN_TYPE_ELF }
    | BfdFlavour.coff =>
      bfdAfterType ptr h { bin1 with type := BinaryType.BIN_TYPE_PE }
    | _ => (-1, bin1)

/-! ### Dispatcher -/

/-- load_binary (loader.cpp lines 20-37): for BIN_TYPE_AUTO and BIN_TYPE_ELF
try libelfmaster first and return its result when it succeeded or when the
hint is explicitly ELF; otherwise fall through (the switch has no break) to
the BFD path, which BIN_TYPE_PE reaches directly. -/
def load_binary (ptr : Nat) (lw : LemWorld) (bw : BfdWorld) (fname : String)
    (bin : Binary) (ty : BinaryType) : Int × Binary :=
  match ty with
  | BinaryType.BIN_TYPE_AUTO | BinaryType.BIN_TYPE_ELF =>
    if (load_binary_lem ptr lw fname bin).1 = 0 ∨ ty = BinaryType.BIN_TYPE_ELF then
      load_binary_lem ptr lw fname bin
    else
      load_binary_bfd ptr bw fname (load_binary_lem ptr lw fname bin).2 ty
  | BinaryType.BIN_TYPE_PE => load_binary_bfd ptr bw fname bin ty

/-! ### Closed-form descriptions used in the theorem statements -/

/-- The Symbol list produced by filtering a libelfmaster table down to its
STT_FUNC entries, recording name and value. -/
def lemFuncSyms (l : List LemSymbol) : List Symbol :=
  (l.filter (fun s => decide (s.stype = STT_FUNC))).map
    (fun s => { type := SymbolType.SYM_TYPE_FUNC, name := s.name, addr := s.value })

/-- The Symbol list produced by filtering a canonicalized BFD table down to
its BSF_FUNCTION entries, recording name and value. -/
def bfdFuncSyms (l : List BfdSymbol) : List Symbol :=
  (l.filter (fun e => decide (Nat.land e.flags BSF_FUNCTION ≠ 0))).map
    (fun e => { type := SymbolType.SYM_TYPE_FUNC, name := e.name, addr := e.value })

/-- The source sections Backend A retains: not SHT_NOBITS and classified as
CODE or DATA. -/
def lemRetainedSecs (l : List LemSection) : List LemSection :=
  l.filter (fun ls => decide (ls.stype ≠ SHT_NOBITS ∧
    lemSecType ls ≠ SectionType.SEC_TYPE_NONE))

/-- The source sections Backend B retains: classified as CODE or DATA. -/
def bfdRetainedSecs (l : List BfdSection) : List BfdSection :=
  l.filter (fun bs => decide (bfdSecType bs ≠ SectionType.SEC_TYPE_NONE))

/-- The metadata of a Section: every field except the byte buffer. -/
def secMeta (s : Section) : Nat × String × SectionType × Nat × Nat :=
  (s.binary, s.name, s.type, s.vma, s.size)

/-- An Elfobj with both symbol table readings replaced; every other fact is
unchanged. -/
def setLemSymtabs (obj : Elfobj) (hs : Bool) (t : List LemSymbol) (te : Bool)
    (hd : Bool) (d : List LemSymbol) (de : Bool) : Elfobj :=
  { obj with hasSymtab := hs, symtab := t, symtabErr := te,
             hasDynsym := hd, dynsym := d, dynsymErr := de }

/-- A BfdWorld with both symbol table readings replaced; every other fact is
unchanged. -/
def setBfdSymtabs (w : BfdWorld) (t d : BfdSymtabRead) : BfdWorld :=
  { w with handle := { w.handle with symtab := t, dynsym := d } }

/-- The Symbol list a BFD symbol-table read appends to the Binary: empty on
every failure path, the BSF_FUNCTION entries on success. -/
def bfdSymsApp (st : BfdSymtabRead) : List Symbol :=
  if st.n < 0 then []
  else if st.n = 0 then []
  else if st.allocOk = false then []
  else
    match st.canon with
    | none => []
    | some entries => bfdFuncSyms entries

/-! ### Concrete scenario inputs -/

/-- A static-table function symbol reported by libelfmaster. -/
def lemSymMain : LemSymbol := { stype := 2, name := "main", value := 100 }

/-- An executable PROGBITS section whose buffer allocation succeeds. -/
def lemSecText : LemSection :=
  { stype := 1, flags := 4, name := some ".text", address := 4096, size := 2,
    data := [7, 8], allocOk := true }

/-- An allocated PROGBITS section whose buffer allocation fails. -/
def lemSecData : LemSection :=
  { stype := 1, flags := 2, name := some ".data", address := 8192, size := 1,
    data := [9], allocOk := false }

/-- A NOBITS section (never materialized). -/
def lemSecBss : LemSection :=
  { stype := 8, flags := 2, name := some ".bss", address := 12288, size := 4,
    data := [], allocOk := true }

/-- A non-executable, non-allocated section (never materialized). -/
def lemSecDebug : LemSection :=
  { stype := 1, flags := 0, name := some ".debug", address := 0, size := 3,
    data := [1, 2, 3], allocOk := true }

/-- An ELF object on which Backend A fails partway through section
extraction: the static table holds one function symbol, the first section is
materialized, then allocation for the second section fails. -/
def obj2 : Elfobj :=
  { entry := 4194304, arch := ElfArch.i386,
    hasSymtab := true, symtab := [lemSymMain], symtabErr := false,
    hasDynsym := false, dynsym := [], dynsymErr := false,
    hasShdrs := true, sections := [lemSecText, lemSecData] }

/-- The libelfmaster outcome for the partial-failure scenario. -/
def lw2 : LemWorld := { openResult := some obj2 }

/-- An ELF object with no symbol tables and no section headers flag. -/
def obj10 : Elfobj :=
  { entry := 5, arch := ElfArch.i386,
    hasSymtab := false, symtab := [], symtabErr := false,
    hasDynsym := false, dynsym := [], dynsymErr := false,
    hasShdrs := false, sections := [] }

/-- The libelfmaster outcome for the no-section-headers scenario. -/
def lw10 : LemWorld := { openResult := some obj10 }

/-- An ELF object whose machine is unsupported. -/
def objU : Elfobj :=
  { entry := 7, arch := ElfArch.unsupported,
    hasSymtab := false, symtab := [], symtabErr := false,
    hasDynsym := false, dynsym := [], dynsymErr := false,
    hasShdrs := false, sections := [] }

/-- The libelfmaster outcome for the unsupported-architecture scenario. -/
def lwU : LemWorld := { openResult := some objU }

/-- An ELF object on which Backend A succeeds with one section of each
classification outcome. -/
def objOk : Elfobj :=
  { entry := 1, arch := ElfArch.x64,
    hasSymtab := false, symtab := [], symtabErr := false,
    hasDynsym := false, dynsym := [], dynsymErr := false,
    hasShdrs := true, sections := [lemSecText, lemSecBss, lemSecDebug] }

/-- An empty symbol-table read (upper bound zero). -/
def stEmpty : BfdSymtabRead := { n := 0, allocOk := true, canon := some [] }

/-- A BFD code section that loads successfully. -/
def bfdSecText : BfdSection :=
  { flags := 16, name := some ".text", vma := 4096, size := 2,
    contents := [1, 2], allocOk := true, readOk := true }

/-- A BFD handle for an i386 ELF file with one code section and no symbols. -/
def bfdHandle2 : Bfd :=
  { startAddress := 4194304, xvecName := "elf32-i386", flavour := BfdFlavour.elf,
    mach := 1, printableName := "i386",
    symtab := stEmpty, dynsym := stEmpty, sections := [bfdSecText] }

/-- The BFD outcome for the fallback scenario: open succeeds and the load
goes through. -/
def bw2 : BfdWorld := { openrOk := true, checkFormatOk := true, handle := bfdHandle2 }

/-- A BFD handle whose machine value is neither supported x86 value. -/
def bfdHandleU : Bfd :=
  { startAddress := 0, xvecName := "elf32-m68k", flavour := BfdFlavour.elf,
    mach := 7, printableName := "m68k",
    symtab := stEmpty, dynsym := stEmpty, sections := [] }

/-- The BFD outcome for the unsupported-architecture scenario. -/
def bwU : BfdWorld := { openrOk := true, checkFormatOk := true, handle := bfdHandleU }

/-- A canonicalized BFD symbol with BSF_FUNCTION set. -/
def bfdSymF : BfdSymbol := { flags := 16, name := "f1", value := 10 }

/-- A canonicalized BFD symbol without BSF_FUNCTION. -/
def bfdSymD : BfdSymbol := { flags := 2, name := "d1", value := 20 }

/-- A successful symbol-table read holding one function and one data
symbol. -/
def stW : BfdSymtabRead := { n := 8, allocOk := true, canon := some [bfdSymF, bfdSymD] }

/-! ### Helper lemmas -/

theorem releaseSections_eq (l : List Section) :
    releaseSections l = l.map (fun s => { s with bytes := none }) := by
  induction l with
  | nil => rfl
  | cons a t ih =>
    simp only [releaseSections, List.map_cons] at ih ⊢
    refine congrArg₂ _ ?_ ih
    by_cases h : a.bytes.isSome
    · simp [h]
    · have hn : a.bytes = none := Option.not_isSome_iff_eq_none.mp h
      cases a
      simp_all

theorem releaseSections_bytes (l : List Section) :
    ∀ s ∈ releaseSections l, s.bytes = none := by
  intro s hs
  rw [releaseSections_eq] at hs
  obtain ⟨a, _, rfl⟩ := List.mem_map.mp hs
  rfl

theorem releaseSections_idem (l : List Section) :
    releaseSections (releaseSections l) = releaseSections l := by
  simp [releaseSections_eq, List.map_map, Function.comp]

theorem releaseSections_meta (l : List Section) :
    (releaseSections l).map secMeta = l.map secMeta := by
  simp [releaseSections_eq, List.map_map, Function.comp, secMeta]

theorem releaseSections_length (l : List Section) :
    (releaseSections l).length = l.length := by
  simp [releaseSections_eq]

theorem lemSymLoop_eq (l : List LemSymbol) (bin : Binary) :
    lemSymLoop l bin = { bin with symbols := bin.symbols ++ lemFuncSyms l } := by
  induction l generalizing bin with
  | nil => simp [lemSymLoop, lemFuncSyms]
  | cons s rest ih =>
    by_cases h : s.stype = STT_FUNC
    · rw [lemSymLoop, if_pos h, ih]
      simp [lemFuncSyms, List.filter_cons, h]
    · rw [lemSymLoop, if_neg h, ih]
      simp [lemFuncSyms, List.filter_cons, h]

theorem bfdSymLoop_eq (l : List BfdSymbol) (bin : Binary) :
    bfdSymLoop l bin = { bin with symbols := bin.symbols ++ bfdFuncSyms l } := by
  induction l generalizing bin with
  | nil => simp [bfdSymLoop, bfdFuncSyms]
  | cons e rest ih =>
    by_cases h : Nat.land e.flags BSF_FUNCTION ≠ 0
    · rw [bfdSymLoop, if_pos h, ih]
      simp [bfdFuncSyms, List.filter_cons, h]
    · rw [bfdSymLoop, if_neg h, ih]
      simp [bfdFuncSyms, List.filter_cons, h]

theorem load_symbols_lem_eq (obj : Elfobj) (bin : Binary) :
    load_symbols_lem obj bin =
      (0, { bin with symbols := bin.symbols ++
        (if obj.hasSymtab then lemFuncSyms obj.symtab else []) }) := by
  by_cases h : obj.hasSymtab
  · simp [load_symbols_lem, h, lemSymLoop_eq]
  · simp [load_symbols_lem, h]

theorem load_dynsym_lem_eq (obj : Elfobj) (bin : Binary) :
    load_dynsym_lem obj bin =
      (0, { bin with symbols := bin.symbols ++
        (if obj.hasDynsym then lemFuncSyms obj.dynsym else []) }) := by
  by_cases h : obj.hasDynsym
  · simp [load_dynsym_lem, h, lemSymLoop_eq]
  · simp [load_dynsym_lem, h]

theorem load_symbols_bfd_snd (st : BfdSymtabRead) (bin : Binary) :
    (load_symbols_bfd st bin).2 =
      { bin with symbols := bin.symbols ++ bfdSymsApp st } := by
  unfold load_symbols_bfd bfdSymsApp
  by_cases h1 : st.n < 0
  · simp [h1]
  · by_cases h2 : st.n = 0
    · simp [h1, h2]
    · by_cases h3 : st.allocOk = false
      · simp [h1, h2, h3]
      · cases hc : st.canon with
        | none => simp [h1, h2, h3, hc]
        | some entries => simp [h1, h2, h3, hc, bfdSymLoop_eq]

theorem load_dynsym_bfd_snd (st : BfdSymtabRead) (bin : Binary) :
    (load_dynsym_bfd st bin).2 =
      { bin with symbols := bin.symbols ++ bfdSymsApp st } := by
  unfold load_dynsym_bfd bfdSymsApp
  by_cases h1 : st.n < 0
  · simp [h1]
  · by_cases h2 : st.n = 0
    · simp [h1, h2]
    · by_cases h3 : st.allocOk = false
      · simp [h1, h2, h3]
      · cases hc : st.canon with
        | none => simp [h1, h2, h3, hc]
        | some entries => simp [h1, h2, h3, hc, bfdSymLoop_eq]

theorem load_symbols_bfd_fst (st : BfdSymtabRead) (b1 b2 : Binary) :
    (load_symbols_bfd st b1).1 = (load_symbols_bfd st b2).1 := by
  unfold load_symbols_bfd
  by_cases h1 : st.n < 0
  · simp [h1]
  · by_cases h2 : st.n = 0
    · simp [h1, h2]
    · by_cases h3 : st.allocOk = false
      · simp [h1, h2, h3]
      · cases hc : st.canon <;> simp [h1, h2, h3, hc]

theorem load_dynsym_bfd_fst (st : BfdSymtabRead) (b1 b2 : Binary) :
    (load_dynsym_bfd st b1).1 = (load_dynsym_bfd st b2).1 := by
  unfold load_dynsym_bfd
  by_cases h1 : st.n < 0
  · simp [h1]
  · by_cases h2 : st.n = 0
    · simp [h1, h2]
    · by_cases h3 : st.allocOk = false
      · simp [h1, h2, h3]
      · cases hc : st.canon <;> simp [h1, h2, h3, hc]

theorem lemSecLoop_fst_cases (ptr : Nat) (l : List LemSection) (bin : Binary) :
    (lemSecLoop ptr l bin).1 = 0 ∨ (lemSecLoop ptr l bin).1 = -1 := by
  induction l generalizing bin with
  | nil => left; rfl
  | cons ls rest ih =>
    by_cases h1 : ls.stype = SHT_NOBITS
    · rw [lemSecLoop, if_pos h1]; exact ih bin
    · by_cases h2 : lemSecType ls = SectionType.SEC_TYPE_NONE
      · rw [lemSecLoop, if_neg h1, if_pos h2]; exact ih bin
      · by_cases h3 : ls.allocOk = false
        · rw [lemSecLoop, if_neg h1, if_neg h2, if_pos h3]; right; rfl
        · rw [lemSecLoop, if_neg h1, if_neg h2, if_neg h3]; exact ih _

theorem lemSecLoop_frame (ptr : Nat) (l : List LemSection) (bin : Binary) :
    ∃ secs, (lemSecLoop ptr l bin).2 = { bin with sections := secs } := by
  induction l generalizing bin with
  | nil => exact ⟨bin.sections, rfl⟩
  | cons ls rest ih =>
    by_cases h1 : ls.stype = SHT_NOBITS
    · rw [lemSecLoop, if_pos h1]; exact ih bin
    · by_cases h2 : lemSecType ls = SectionType.SEC_TYPE_NONE
      · rw [lemSecLoop, if_neg h1, if_pos h2]; exact ih bin
      · by_cases h3 : ls.allocOk = false
        · rw [lemSecLoop, if_neg h1, if_neg h2, if_pos h3]
          exact ⟨releaseSections bin.sections, rfl⟩
        · rw [lemSecLoop, if_neg h1, if_neg h2, if_neg h3]
          obtain ⟨secs, hsecs⟩ := ih { bin with sections := bin.sections ++ [mkLemSec ptr ls] }
          exact ⟨secs, hsecs⟩

theorem lemSecLoop_succ (ptr : Nat) (l : List LemSection) (bin : Binary)
    (h : (lemSecLoop ptr l bin).1 = 0) :
    (lemSecLoop ptr l bin).2 =
      { bin with sections := bin.sections ++ (lemRetainedSecs l).map (mkLemSec ptr) } := by
  induction l generalizing bin with
  | nil => simp [lemSecLoop, lemRetainedSecs]
  | cons ls rest ih =>
    by_cases h1 : ls.stype = SHT_NOBITS
    · rw [lemSecLoop, if_pos h1] at h ⊢
      rw [ih bin h]
      simp [lemRetainedSecs, List.filter_cons, h1]
    · by_cases h2 : lemSecType ls = SectionType.SEC_TYPE_NONE
      · rw [lemSecLoop, if_neg h1, if_pos h2] at h ⊢
        rw [ih bin h]
        simp [lemRetainedSecs, List.filter_cons, h2]
      · by_cases h3 : ls.allocOk = false
        · rw [lemSecLoop, if_neg h1, if_neg h2, if_pos h3] at h
          simp at h
        · rw [lemSecLoop, if_neg h1, if_neg h2, if_neg h3] at h ⊢
          rw [ih _ h]
          simp [lemRetainedSecs, List.filter_cons, h1, h2]

theorem lemSecLoop_fail_none (ptr : Nat) (l : List LemSection) (bin : Binary)
    (h : (lemSecLoop ptr l bin).1 ≠ 0) :
    ∀ s ∈ (lemSecLoop ptr l bin).2.sections, s.bytes = none := by
  induction l generalizing bin with
  | nil => exact absurd rfl h
  | cons ls rest ih =>
    by_cases h1 : ls.stype = SHT_NOBITS
    · rw [lemSecLoop, if_pos h1] at h ⊢; exact ih bin h
    · by_cases h2 : lemSecType ls = SectionType.SEC_TYPE_NONE
      · rw [lemSecLoop, if_neg h1, if_pos h2] at h ⊢; exact ih bin h
      · by_cases h3 : ls.allocOk = false
        · rw [lemSecLoop, if_neg h1, if_neg h2, if_pos h3]
          exact releaseSections_bytes bin.sections
        · rw [lemSecLoop, if_neg h1, if_neg h2, if_neg h3] at h ⊢; exact ih _ h

theorem lemSecLoop_fst_congr (ptr : Nat) (l : List LemSection) (b1 b2 : Binary) :
    (lemSecLoop ptr l b1).1 = (lemSecLoop ptr l b2).1 := by
  induction l generalizing b1 b2 with
  | nil => rfl
  | cons ls rest ih =>
    by_cases h1 : ls.stype = SHT_NOBITS
    · rw [lemSecLoop, lemSecLoop, if_pos h1, if_pos h1]; exact ih b1 b2
    · by_cases h2 : lemSecType ls = SectionType.SEC_TYPE_NONE
      · rw [lemSecLoop, lemSecLoop, if_neg h1, if_neg h1, if_pos h2, if_pos h2]
        exact ih b1 b2
      · by_cases h3 : ls.allocOk = false
        · rw [lemSecLoop, lemSecLoop, if_neg h1, if_neg h1, if_neg h2, if_neg h2,
              if_pos h3, if_pos h3]
        · rw [lemSecLoop, lemSecLoop, if_neg h1, if_neg h1, if_neg h2, if_neg h2,
              if_neg h3, if_neg h3]
          exact ih _ _

theorem lemSecLoop_any_fail (ptr : Nat) (l : List LemSection) (bin : Binary)
    (h : (lemRetainedSecs l).any (fun ls => !ls.allocOk) = true) :
    (lemSecLoop ptr l bin).1 = -1 := by
  induction l generalizing bin with
  | nil => simp [lemRetainedSecs] at h
  | cons ls rest ih =>
    by_cases h1 : ls.stype = SHT_NOBITS
    · rw [lemSecLoop, if_pos h1]
      refine ih bin ?_
      simpa [lemRetainedSecs, List.filter_cons, h1] using h
    · by_cases h2 : lemSecType ls = SectionType.SEC_TYPE_NONE
      · rw [lemSecLoop, if_neg h1, if_pos h2]
        refine ih bin ?_
        simpa [lemRetainedSecs, List.filter_cons, h2] using h
      · by_cases h3 : ls.allocOk = false
        · rw [lemSecLoop, if_neg h1, if_neg h2, if_pos h3]
        · rw [lemSecLoop, if_neg h1, if_neg h2, if_neg h3]
          refine ih _ ?_
          have hka : ls.allocOk = true := by
            cases hx : ls.allocOk
            · exact absurd hx h3
            · rfl
          simpa [lemRetainedSecs, List.filter_cons, h1, h2, hka] using h

theorem bfdSecLoop_fst_cases (ptr : Nat) (l : List BfdSection) (bin : Binary) :
    (bfdSecLoop ptr l bin).1 = 0 ∨ (bfdSecLoop ptr l bin).1 = -1 := by
  induction l generalizing bin with
  | nil => left; rfl
  | cons bs rest ih =>
    by_cases h1 : bfdSecType bs = SectionType.SEC_TYPE_NONE
    · rw [bfdSecLoop, if_pos h1]; exact ih bin
    · by_cases h2 : bs.allocOk = false ∨ bs.readOk = false
      · rw [bfdSecLoop, if_neg h1, if_pos h2]; right; rfl
      · rw [bfdSecLoop, if_neg h1, if_neg h2]; exact ih _

theorem bfdSecLoop_frame (ptr : Nat) (l : List BfdSection) (bin : Binary) :
    ∃ secs, (bfdSecLoop ptr l bin).2 = { bin with sections := secs } := by
  induction l generalizing bin with
  | nil => exact ⟨bin.sections, rfl⟩
  | cons bs rest ih =>
    by_cases h1 : bfdSecType bs = SectionType.SEC_TYPE_NONE
    · rw [bfdSecLoop, if_pos h1]; exact ih bin
    · by_cases h2 : bs.allocOk = false ∨ bs.readOk = false
      · rw [bfdSecLoop, if_neg h1, if_pos h2]
        exact ⟨releaseSections (bin.sections ++ [mkBfdSecFailed ptr bs]), rfl⟩
      · rw [bfdSecLoop, if_neg h1, if_neg h2]
        obtain ⟨secs, hsecs⟩ := ih { bin with sections := bin.sections ++ [mkBfdSec ptr bs] }
        exact ⟨secs, hsecs⟩

theorem bfdSecLoop_succ (ptr : Nat) (l : List BfdSection) (bin : Binary)
    (h : (bfdSecLoop ptr l bin).1 = 0) :
    (bfdSecLoop ptr l bin).2 =
      { bin with sections := bin.sections ++ (bfdRetainedSecs l).map (mkBfdSec ptr) } := by
  induction l generalizing bin with
  | nil => simp [bfdSecLoop, bfdRetainedSecs]
  | cons bs rest ih =>
    by_cases h1 : bfdSecType bs = SectionType.SEC_TYPE_NONE
    · rw [bfdSecLoop, if_pos h1] at h ⊢
      rw [ih bin h]
      simp [bfdRetainedSecs, List.filter_cons, h1]
    · by_cases h2 : bs.allocOk = false ∨ bs.readOk = false
      · rw [bfdSecLoop, if_neg h1, if_pos h2] at h
        simp at h
      · rw [bfdSecLoop, if_neg h1, if_neg h2] at h ⊢
        rw [ih _ h]
        simp [bfdRetainedSecs, List.filter_cons, h1]

theorem bfdSecLoop_fail_none (ptr : Nat) (l : List BfdSection) (bin : Binary)
    (h : (bfdSecLoop ptr l bin).1 ≠ 0) :
    ∀ s ∈ (bfdSecLoop ptr l bin).2.sections, s.bytes = none := by
  induction l generalizing bin with
  | nil => exact absurd rfl h
  | cons bs rest ih =>
    by_cases h1 : bfdSecType bs = SectionType.SEC_TYPE_NONE
    · rw [bfdSecLoop, if_pos h1] at h ⊢; exact ih bin h
    · by_cases h2 : bs.allocOk = false ∨ bs.readOk = false
      · rw [bfdSecLoop, if_neg h1, if_pos h2]
        exact releaseSections_bytes _
      · rw [bfdSecLoop, if_neg h1, if_neg h2] at h ⊢; exact ih _ h

theorem bfdSecLoop_fst_congr (ptr : Nat) (l : List BfdSection) (b1 b2 : Binary) :
    (bfdSecLoop ptr l b1).1 = (bfdSecLoop ptr l b2).1 := by
  induction l generalizing b1 b2 with
  | nil => rfl
  | cons bs rest ih =>
    by_cases h1 : bfdSecType bs = SectionType.SEC_TYPE_NONE
    · rw [bfdSecLoop, bfdSecLoop, if_pos h1, if_pos h1]; exact ih b1 b2
    · by_cases h2 : bs.allocOk = false ∨ bs.readOk = false
      · rw [bfdSecLoop, bfdSecLoop, if_neg h1, if_neg h1, if_pos h2, if_pos h2]
      · rw [bfdSecLoop, bfdSecLoop, if_neg h1, if_neg h1, if_neg h2, if_neg h2]
        exact ih _ _

theorem bfdSecLoop_any_fail (ptr : Nat) (l : List BfdSection) (bin : Binary)
    (h : (bfdRetainedSecs l).any (fun bs => !bs.allocOk || !bs.readOk) = true) :
    (bfdSecLoop ptr l bin).1 = -1 := by
  induction l generalizing bin with
  | nil => simp [bfdRetainedSecs] at h
  | cons bs rest ih =>
    by_cases h1 : bfdSecType bs = SectionType.SEC_TYPE_NONE
    · rw [bfdSecLoop, if_pos h1]
      refine ih bin ?_
      simpa [bfdRetainedSecs, List.filter_cons, h1] using h
    · by_cases h2 : bs.allocOk = false ∨ bs.readOk = false
      · rw [bfdSecLoop, if_neg h1, if_pos h2]
      · rw [bfdSecLoop, if_neg h1, if_neg h2]
        refine ih _ ?_
        have hka : bs.allocOk = true := by
          cases hx : bs.allocOk
          · exact absurd (Or.inl hx) h2
          · rfl
        have hkr : bs.readOk = true := by
          cases hx : bs.readOk
          · exact absurd (Or.inr hx) h2
          · rfl
        simpa [bfdRetainedSecs, List.filter_cons, h1, hka, hkr] using h

theorem load_sections_lem_fst_cases (ptr : Nat) (obj : Elfobj) (bin : Binary) :
    (load_sections_lem ptr obj bin).1 = 0 ∨ (load_sections_lem ptr obj bin).1 = -1 := by
  by_cases h : obj.hasShdrs = false
  · left; simp [load_sections_lem, h]
  · rw [load_sections_lem, if_neg h]; exact lemSecLoop_fst_cases ptr obj.sections bin

theorem load_sections_lem_frame (ptr : Nat) (obj : Elfobj) (bin : Binary) :
    ∃ secs, (load_sections_lem ptr obj bin).2 = { bin with sections := secs } := by
  by_cases h : obj.hasShdrs = false
  · exact ⟨bin.sections, by simp [load_sections_lem, h]⟩
  · rw [load_sections_lem, if_neg h]; exact lemSecLoop_frame ptr obj.sections bin

theorem load_sections_lem_succ (ptr : Nat) (obj : Elfobj) (bin : Binary)
    (h : (load_sections_lem ptr obj bin).1 = 0) :
    (load_sections_lem ptr obj bin).2 =
      { bin with sections := bin.sections ++
        (lemRetainedSecs (if obj.hasShdrs then obj.sections else [])).map (mkLemSec ptr) } := by
  by_cases hs : obj.hasShdrs = false
  · have hb : obj.hasShdrs = false := hs
    simp [load_sections_lem, hb, lemRetainedSecs]
  · have hb : obj.hasShdrs = true := by
      cases hx : obj.hasShdrs
      · exact absurd hx hs
      · rfl
    rw [load_sections_lem, if_neg hs] at h ⊢
    rw [lemSecLoop_succ ptr obj.sections bin h]
    simp [hb]

theorem load_sections_lem_fail_none (ptr : Nat) (obj : Elfobj) (bin : Binary)
    (h : (load_sections_lem ptr obj bin).1 ≠ 0) :
    ∀ s ∈ (load_sections_lem ptr obj bin).2.sections, s.bytes = none := by
  by_cases hs : obj.hasShdrs = false
  · exact absurd (by simp [load_sections_lem, hs]) h
  · rw [load_sections_lem, if_neg hs] at h ⊢
    exact lemSecLoop_fail_none ptr obj.sections bin h

theorem load_sections_lem_fst_congr (ptr : Nat) (obj : Elfobj) (b1 b2 : Binary) :
    (load_sections_lem ptr obj b1).1 = (load_sections_lem ptr obj b2).1 := by
  by_cases hs : obj.hasShdrs = false
  · simp [load_sections_lem, hs]
  · rw [load_sections_lem, load_sections_lem, if_neg hs, if_neg hs]
    exact lemSecLoop_fst_congr ptr obj.sections b1 b2

theorem load_sections_bfd_fst_cases (ptr : Nat) (h : Bfd) (bin : Binary) :
    (load_sections_bfd ptr h bin).1 = 0 ∨ (load_sections_bfd ptr h bin).1 = -1 :=
  bfdSecLoop_fst_cases ptr h.sections bin

theorem load_sections_bfd_frame (ptr : Nat) (h : Bfd) (bin : Binary) :
    ∃ secs, (load_sections_bfd ptr h bin).2 = { bin with sections := secs } :=
  bfdSecLoop_frame ptr h.sections bin

theorem load_sections_bfd_succ (ptr : Nat) (h : Bfd) (bin : Binary)
    (hc : (load_sections_bfd ptr h bin).1 = 0) :
    (load_sections_bfd ptr h bin).2 =
      { bin with sections := bin.sections ++ (bfdRetainedSecs h.sections).map (mkBfdSec ptr) } :=
  bfdSecLoop_succ ptr h.sections bin hc

theorem load_sections_bfd_fail_none (ptr : Nat) (h : Bfd) (bin : Binary)
    (hc : (load_sections_bfd ptr h bin).1 ≠ 0) :
    ∀ s ∈ (load_sections_bfd ptr h bin).2.sections, s.bytes = none :=
  bfdSecLoop_fail_none ptr h.sections bin hc

theorem load_sections_bfd_fst_congr (ptr : Nat) (h : Bfd) (b1 b2 : Binary) :
    (load_sections_bfd ptr h b1).1 = (load_sections_bfd ptr h b2).1 :=
  bfdSecLoop_fst_congr ptr h.sections b1 b2

theorem lemAfterArch_eq (ptr : Nat) (obj : Elfobj) (bin : Binary) :
    lemAfterArch ptr obj bin =
      ((if (load_sections_lem ptr obj
            { bin with symbols := bin.symbols ++
              (if obj.hasSymtab then lemFuncSyms obj.symtab else []) ++
              (if obj.hasDynsym then lemFuncSyms obj.dynsym else []) }).1 < 0
        then -1 else 0),
       (load_sections_lem ptr obj
            { bin with symbols := bin.symbols ++
              (if obj.hasSymtab then lemFuncSyms obj.symtab else []) ++
              (if obj.hasDynsym then lemFuncSyms obj.dynsym else []) }).2) := by
  unfold lemAfterArch
  simp only [load_symbols_lem_eq, load_dynsym_lem_eq]
  by_cases h : (load_sections_lem ptr obj
      { bin with symbols := bin.symbols ++
        (if obj.hasSymtab then lemFuncSyms obj.symtab else []) ++
        (if obj.hasDynsym then lemFuncSyms obj.dynsym else []) }).1 < 0
  · simp only [h, if_pos, if_true]
  · simp only [h, if_neg, if_false]

theorem bfdAfterArch_eq (ptr : Nat) (h : Bfd) (bin : Binary) :
    bfdAfterArch ptr h bin =
      ((if (load_sections_bfd ptr h
            { bin with symbols := bin.symbols ++
              bfdSymsApp h.symtab ++ bfdSymsApp h.dynsym }).1 < 0
        then -1 else 0),
       (load_sections_bfd ptr h
            { bin with symbols := bin.symbols ++
              bfdSymsApp h.symtab ++ bfdSymsApp h.dynsym }).2) := by
  unfold bfdAfterArch
  simp only [load_symbols_bfd_snd, load_dynsym_bfd_snd]
  by_cases hc : (load_sections_bfd ptr h
      { bin with symbols := bin.symbols ++
        bfdSymsApp h.symtab ++ bfdSymsApp h.dynsym }).1 < 0
  · simp only [hc, if_pos, if_true]
  · simp only [hc, if_neg, if_false]

theorem lemAfterArch_frame (ptr : Nat) (obj : Elfobj) (bin : Binary) :
    (lemAfterArch ptr obj bin).2.arch = bin.arch ∧
    (lemAfterArch ptr obj bin).2.bits = bin.bits ∧
    (lemAfterArch ptr obj bin).2.filename = bin.filename ∧
    (lemAfterArch ptr obj bin).2.type = bin.type := by
  rw [lemAfterArch_eq]
  obtain ⟨secs, hsecs⟩ := load_sections_lem_frame ptr obj
    { bin with symbols := bin.symbols ++
      (if obj.hasSymtab then lemFuncSyms obj.symtab else []) ++
      (if obj.hasDynsym then lemFuncSyms obj.dynsym else []) }
  rw [hsecs]
  exact ⟨rfl, rfl, rfl, rfl⟩

theorem bfdAfterArch_frame (ptr : Nat) (h : Bfd) (bin : Binary) :
    (bfdAfterArch ptr h bin).2.arch = bin.arch ∧
    (bfdAfterArch ptr h bin).2.bits = bin.bits ∧
    (bfdAfterArch ptr h bin).2.filename = bin.filename ∧
    (bfdAfterArch ptr h bin).2.type = bin.type := by
  rw [bfdAfterArch_eq]
  obtain ⟨secs, hsecs⟩ := load_sections_bfd_frame ptr h
    { bin with symbols := bin.symbols ++ bfdSymsApp h.symtab ++ bfdSymsApp h.dynsym }
  rw [hsecs]
  exact ⟨rfl, rfl, rfl, rfl⟩

theorem lemAfterArch_symbols (ptr : Nat) (obj : Elfobj) (bin : Binary) :
    (lemAfterArch ptr obj bin).2.symbols =
      bin.symbols ++ (if obj.hasSymtab then lemFuncSyms obj.symtab else []) ++
        (if obj.hasDynsym then lemFuncSyms obj.dynsym else []) := by
  rw [lemAfterArch_eq]
  obtain ⟨secs, hsecs⟩ := load_sections_lem_frame ptr obj
    { bin with symbols := bin.symbols ++
      (if obj.hasSymtab then lemFuncSyms obj.symtab else []) ++
      (if obj.hasDynsym then lemFuncSyms obj.dynsym else []) }
  rw [hsecs]

theorem lemAfterArch_fail (ptr : Nat) (obj : Elfobj) (bin : Binary)
    (hz : (lemAfterArch ptr obj bin).1 ≠ 0) :
    (lemAfterArch ptr obj bin).1 = -1 ∧
    ∀ s ∈ (lemAfterArch ptr obj bin).2.sections, s.bytes = none := by
  rw [lemAfterArch_eq] at hz ⊢
  set bsy := { bin with symbols := bin.symbols ++
    (if obj.hasSymtab then lemFuncSyms obj.symtab else []) ++
    (if obj.hasDynsym then lemFuncSyms obj.dynsym else []) } with hbsy
  by_cases hlt : (load_sections_lem ptr obj bsy).1 < 0
  · refine ⟨by simp [hlt], ?_⟩
    have hne : (load_sections_lem ptr obj bsy).1 ≠ 0 := by
      intro hx; rw [hx] at hlt; exact absurd hlt (by decide)
    exact load_sections_lem_fail_none ptr obj bsy hne
  · exact absurd (by simp [hlt]) hz

theorem lemAfterArch_succ_sections (ptr : Nat) (obj : Elfobj) (bin : Binary)
    (hz : (lemAfterArch ptr obj bin).1 = 0) :
    (lemAfterArch ptr obj bin).2.sections =
      bin.sections ++
        (lemRetainedSecs (if obj.hasShdrs then obj.sections else [])).map (mkLemSec ptr) := by
  rw [lemAfterArch_eq] at hz ⊢
  set bsy := { bin with symbols := bin.symbols ++
    (if obj.hasSymtab then lemFuncSyms obj.symtab else []) ++
    (if obj.hasDynsym then lemFuncSyms obj.dynsym else []) } with hbsy
  by_cases hlt : (load_sections_lem ptr obj bsy).1 < 0
  · simp [hlt] at hz
  · have h0 : (load_sections_lem ptr obj bsy).1 = 0 := by
      rcases load_sections_lem_fst_cases ptr obj bsy with hc | hc
      · exact hc
      · rw [hc] at hlt; exact absurd (by decide) hlt
    rw [load_sections_lem_succ ptr obj bsy h0]

theorem bfdAfterArch_success_extends (ptr : Nat) (h : Bfd) (bin : Binary)
    (hz : (bfdAfterArch ptr h bin).1 = 0) :
    (bfdAfterArch ptr h bin).2.sections =
      bin.sections ++ (bfdRetainedSecs h.sections).map (mkBfdSec ptr) ∧
    (bfdAfterArch ptr h bin).2.symbols =
      bin.symbols ++ bfdSymsApp h.symtab ++ bfdSymsApp h.dynsym := by
  rw [bfdAfterArch_eq] at hz ⊢
  set bsy := { bin with
    symbols := bin.symbols ++ bfdSymsApp h.symtab ++ bfdSymsApp h.dynsym } with hbsy
  by_cases hlt : (load_sections_bfd ptr h bsy).1 < 0
  · simp [hlt] at hz
  · have h0 : (load_sections_bfd ptr h bsy).1 = 0 := by
      rcases load_sections_bfd_fst_cases ptr h bsy with hc | hc
      · exact hc
      · rw [hc] at hlt; exact absurd (by decide) hlt
    rw [load_sections_bfd_succ ptr h bsy h0]
    exact ⟨rfl, rfl⟩

theorem load_binary_lem_some_i386 (ptr : Nat) (lw : LemWorld) (fname : String)
    (bin : Binary) (obj : Elfobj) (hob : lw.openResult = some obj)
    (ha : obj.arch = ElfArch.i386) :
    load_binary_lem ptr lw fname bin =
      lemAfterArch ptr obj
        { bin with filename := fname, type := BinaryType.BIN_TYPE_ELF,
                   entry := obj.entry, type_str := "unknown",
                   arch_str := "X86", arch := BinaryArch.ARCH_X86, bits := 32 } := by
  simp [load_binary_lem, hob, ha]

theorem load_binary_lem_some_x64 (ptr : Nat) (lw : LemWorld) (fname : String)
    (bin : Binary) (obj : Elfobj) (hob : lw.openResult = some obj)
    (ha : obj.arch = ElfArch.x64) :
    load_binary_lem ptr lw fname bin =
      lemAfterArch ptr obj
        { bin with filename := fname, type := BinaryType.BIN_TYPE_ELF,
                   entry := obj.entry, type_str := "unknown",
                   arch_str := "X86_64", arch := BinaryArch.ARCH_X86, bits := 64 } := by
  simp [load_binary_lem, hob, ha]

theorem load_binary_lem_some_unsupported (ptr : Nat) (lw : LemWorld) (fname : String)
    (bin : Binary) (obj : Elfobj) (hob : lw.openResult = some obj)
    (ha : obj.arch = ElfArch.unsupported) :
    load_binary_lem ptr lw fname bin =
      (-1, { bin with filename := fname, type := BinaryType.BIN_TYPE_ELF,
                      entry := obj.entry, type_str := "unknown" }) := by
  simp [load_binary_lem, hob, ha]

theorem load_binary_lem_open_fail (ptr : Nat) (lw : LemWorld) (fname : String)
    (bin : Binary) (hob : lw.openResult = none) :
    load_binary_lem ptr lw fname bin = (-1, bin) := by
  simp [load_binary_lem, hob]

theorem bfdAfterType_i386 (ptr : Nat) (h : Bfd) (bin : Binary)
    (hm : h.mach = bfd_mach_i386_i386) :
    bfdAfterType ptr h bin =
      bfdAfterArch ptr h
        { bin with arch_str := h.printableName,
                   arch := BinaryArch.ARCH_X86, bits := 32 } := by
  simp [bfdAfterType, hm]

theorem bfdAfterType_x64 (ptr : Nat) (h : Bfd) (bin : Binary)
    (hm1 : h.mach ≠ bfd_mach_i386_i386) (hm2 : h.mach = bfd_mach_x86_64) :
    bfdAfterType ptr h bin =
      bfdAfterArch ptr h
        { bin with arch_str := h.printableName,
                   arch := BinaryArch.ARCH_X86, bits := 64 } := by
  simp [bfdAfterType, hm1, hm2, bfd_mach_i386_i386, bfd_mach_x86_64]

theorem bfdAfterType_badmach (ptr : Nat) (h : Bfd) (bin : Binary)
    (hm1 : h.mach ≠ bfd_mach_i386_i386) (hm2 : h.mach ≠ bfd_mach_x86_64) :
    bfdAfterType ptr h bin = (-1, { bin with arch_str := h.printableName }) := by
  simp [bfdAfterType, hm1, hm2]

theorem load_binary_bfd_open_fail (ptr : Nat) (w : BfdWorld) (fname : String)
    (bin : Binary) (ty : BinaryType) (hob : open_bfd w = none) :
    load_binary_bfd ptr w fname bin ty = (-1, bin) := by
  simp [load_binary_bfd, hob]

theorem load_binary_bfd_elf (ptr : Nat) (w : BfdWorld) (fname : String)
    (bin : Binary) (ty : BinaryType) (h : Bfd) (hob : open_bfd w = some h)
    (hfl : h.flavour = BfdFlavour.elf) :
    load_binary_bfd ptr w fname bin ty =
      bfdAfterType ptr h
        { bin with filename := fname, entry := h.startAddress,
                   type_str := h.xvecName, type := BinaryType.BIN_TYPE_ELF } := by
  simp [load_binary_bfd, hob, hfl]

theorem load_binary_bfd_coff (ptr : Nat) (w : BfdWorld) (fname : String)
    (bin : Binary) (ty : BinaryType) (h : Bfd) (hob : open_bfd w = some h)
    (hfl : h.flavour = BfdFlavour.coff) :
    load_binary_bfd ptr w fname bin ty =
      bfdAfterType ptr h
        { bin with filename := fname, entry := h.startAddress,
                   type_str := h.xvecName, type := BinaryType.BIN_TYPE_PE } := by
  simp [load_binary_bfd, hob, hfl]

theorem load_binary_bfd_other (ptr : Nat) (w : BfdWorld) (fname : String)
    (bin : Binary) (ty : BinaryType) (h : Bfd) (hob : open_bfd w = some h)
    (hfl : h.flavour = BfdFlavour.other) :
    load_binary_bfd ptr w fname bin ty =
      (-1, { bin with filename := fname, entry := h.startAddress,
                      type_str := h.xvecName }) := by
  simp [load_binary_bfd, hob, hfl]

theorem load_binary_auto_fail (ptr : Nat) (lw : LemWorld) (bw : BfdWorld)
    (fname : String) (bin : Binary)
    (h : (load_binary_lem ptr lw fname bin).1 ≠ 0) :
    load_binary ptr lw bw fname bin BinaryType.BIN_TYPE_AUTO =
      load_binary_bfd ptr bw fname (load_binary_lem ptr lw fname bin).2
        BinaryType.BIN_TYPE_AUTO := by
  simp [load_binary, h]

theorem open_bfd_setBfdSymtabs (w : BfdWorld) (t d : BfdSymtabRead) :
    open_bfd (setBfdSymtabs w t d)
      = (open_bfd w).map (fun h => { h with symtab := t, dynsym := d }) := by
  unfold open_bfd setBfdSymtabs
  by_cases h1 : w.openrOk = false
  · simp [h1]
  · by_cases h2 : w.checkFormatOk = false
    · simp [h1, h2]
    · by_cases h3 : w.handle.flavour = BfdFlavour.unknown
      · simp [h1, h2, h3]
      · simp [h1, h2, h3]

theorem lemAfterArch_fst_symtabs (ptr : Nat) (obj : Elfobj) (hs : Bool)
    (t : List LemSymbol) (te : Bool) (hd : Bool) (d : List LemSymbol) (de : Bool)
    (b1 b2 : Binary) :
    (lemAfterArch ptr (setLemSymtabs obj hs t te hd d de) b1).1
      = (lemAfterArch ptr obj b2).1 := by
  rw [lemAfterArch_eq, lemAfterArch_eq]
  have hc : (load_sections_lem ptr (setLemSymtabs obj hs t te hd d de)
      { b1 with symbols := b1.symbols ++
        (if (setLemSymtabs obj hs t te hd d de).hasSymtab then
          lemFuncSyms (setLemSymtabs obj hs t te hd d de).symtab else []) ++
        (if (setLemSymtabs obj hs t te hd d de).hasDynsym then
          lemFuncSyms (setLemSymtabs obj hs t te hd d de).dynsym else []) }).1
      = (load_sections_lem ptr obj
      { b2 with symbols := b2.symbols ++
        (if obj.hasSymtab then lemFuncSyms obj.symtab else []) ++
        (if obj.hasDynsym then lemFuncSyms obj.dynsym else []) }).1 :=
    load_sections_lem_fst_congr ptr obj _ _
  rw [hc]

theorem bfdAfterArch_fst_symtabs (ptr : Nat) (hh : Bfd) (t d : BfdSymtabRead)
    (b1 b2 : Binary) :
    (bfdAfterArch ptr { hh with symtab := t, dynsym := d } b1).1
      = (bfdAfterArch ptr hh b2).1 := by
  rw [bfdAfterArch_eq, bfdAfterArch_eq]
  have hc : (load_sections_bfd ptr { hh with symtab := t, dynsym := d }
      { b1 with symbols := b1.symbols ++
        bfdSymsApp ({ hh with symtab := t, dynsym := d } : Bfd).symtab ++
        bfdSymsApp ({ hh with symtab := t, dynsym := d } : Bfd).dynsym }).1
      = (load_sections_bfd ptr hh
      { b2 with symbols := b2.symbols ++
        bfdSymsApp hh.symtab ++ bfdSymsApp hh.dynsym }).1 :=
    load_sections_bfd_fst_congr ptr hh _ _
  rw [hc]

theorem bfdAfterType_fst_symtabs (ptr : Nat) (hh : Bfd) (t d : BfdSymtabRead)
    (b1 b2 : Binary) :
    (bfdAfterType ptr { hh with symtab := t, dynsym := d } b1).1
      = (bfdAfterType ptr hh b2).1 := by
  by_cases hm1 : hh.mach = bfd_mach_i386_i386
  · rw [bfdAfterType_i386 ptr { hh with symtab := t, dynsym := d } b1 hm1,
        bfdAfterType_i386 ptr hh b2 hm1]
    exact bfdAfterArch_fst_symtabs ptr hh t d _ _
  · by_cases hm2 : hh.mach = bfd_mach_x86_64
    · rw [bfdAfterType_x64 ptr { hh with symtab := t, dynsym := d } b1 hm1 hm2,
          bfdAfterType_x64 ptr hh b2 hm1 hm2]
      exact bfdAfterArch_fst_symtabs ptr hh t d _ _
    · rw [bfdAfterType_badmach ptr { hh with symtab := t, dynsym := d } b1 hm1 hm2,
          bfdAfterType_badmach ptr hh b2 hm1 hm2]

theorem lemSecType_ne_none_iff (ls : LemSection) :
    lemSecType ls ≠ SectionType.SEC_TYPE_NONE ↔
      (Nat.land ls.flags SHF_EXECINSTR ≠ 0 ∨ Nat.land ls.flags SHF_ALLOC ≠ 0) := by
  unfold lemSecType
  by_cases h1 : Nat.land ls.flags SHF_EXECINSTR ≠ 0
  · simp [h1]
  · by_cases h2 : Nat.land ls.flags SHF_ALLOC ≠ 0
    · simp [h1, h2]
    · simp [h1, h2]

theorem bfdSecType_ne_none_iff (bs : BfdSection) :
    bfdSecType bs ≠ SectionType.SEC_TYPE_NONE ↔
      (Nat.land bs.flags SEC_CODE ≠ 0 ∨ Nat.land bs.flags SEC_DATA ≠ 0) := by
  unfold bfdSecType
  by_cases h1 : Nat.land bs.flags SEC_CODE ≠ 0
  · simp [h1]
  · by_cases h2 : Nat.land bs.flags SEC_DATA ≠ 0
    · simp [h1, h2]
    · simp [h1, h2]

theorem load_binary_bfd_success_extends (ptr : Nat) (w : BfdWorld) (fname : String)
    (bin : Binary) (ty : BinaryType)
    (hz : (load_binary_bfd ptr w fname bin ty).1 = 0) :
    ∃ ss ys, (load_binary_bfd ptr w fname bin ty).2.sections = bin.sections ++ ss ∧
      (load_binary_bfd ptr w fname bin ty).2.symbols = bin.symbols ++ ys := by
  rcases hob : open_bfd w with _ | hh
  · rw [load_binary_bfd_open_fail ptr w fname bin ty hob] at hz
    simp at hz
  · cases hf : hh.flavour with
    | elf =>
      rw [load_binary_bfd_elf ptr w fname bin ty hh hob hf] at hz ⊢
      by_cases hm1 : hh.mach = bfd_mach_i386_i386
      · rw [bfdAfterType_i386 ptr hh _ hm1] at hz ⊢
        obtain ⟨hsec, hsym⟩ := bfdAfterArch_success_extends ptr hh _ hz
        exact ⟨_, bfdSymsApp hh.symtab ++ bfdSymsApp hh.dynsym, hsec,
          by rw [hsym, List.append_assoc]⟩
      · by_cases hm2 : hh.mach = bfd_mach_x86_64
        · rw [bfdAfterType_x64 ptr hh _ hm1 hm2] at hz ⊢
          obtain ⟨hsec, hsym⟩ := bfdAfterArch_success_extends ptr hh _ hz
          exact ⟨_, bfdSymsApp hh.symtab ++ bfdSymsApp hh.dynsym, hsec,
            by rw [hsym, List.append_assoc]⟩
        · rw [bfdAfterType_badmach ptr hh _ hm1 hm2] at hz
          simp at hz
    | coff =>
      rw [load_binary_bfd_coff ptr w fname bin ty hh hob hf] at hz ⊢
      by_cases hm1 : hh.mach = bfd_mach_i386_i386
      · rw [bfdAfterType_i386 ptr hh _ hm1] at hz ⊢
        obtain ⟨hsec, hsym⟩ := bfdAfterArch_success_extends ptr hh _ hz
        exact ⟨_, bfdSymsApp hh.symtab ++ bfdSymsApp hh.dynsym, hsec,
          by rw [hsym, List.append_assoc]⟩
      · by_cases hm2 : hh.mach = bfd_mach_x86_64
        · rw [bfdAfterType_x64 ptr hh _ hm1 hm2] at hz ⊢
          obtain ⟨hsec, hsym⟩ := bfdAfterArch_success_extends ptr hh _ hz
          exact ⟨_, bfdSymsApp hh.symtab ++ bfdSymsApp hh.dynsym, hsec,
            by rw [hsym, List.append_assoc]⟩
        · rw [bfdAfterType_badmach ptr hh _ hm1 hm2] at hz
          simp at hz
    | unknown => simp [load_binary_bfd, hob, hf] at hz
    | other => simp [load_binary_bfd, hob, hf] at hz

/-! ### Claim theorems -/

/-- C1: Dispatch policy of load_binary.  With hint ELF the result is exactly
the result of Backend A (libelfmaster), whether it succeeded or failed, and
Backend B is never consulted; with hint PE the result is exactly the result
of Backend B and Backend A is never consulted; with hint AUTO Backend A runs
first, its result is returned on success, and on failure Backend B runs on
the same Binary and its result, success or failure, is returned. -/
theorem c1_dispatch_policy (ptr : Nat) (lw : LemWorld) (bw : BfdWorld)
    (fname : String) (bin : Binary) :
    load_binary ptr lw bw fname bin BinaryType.BIN_TYPE_ELF
      = load_binary_lem ptr lw fname bin ∧
    load_binary ptr lw bw fname bin BinaryType.BIN_TYPE_PE
      = load_binary_bfd ptr bw fname bin BinaryType.BIN_TYPE_PE ∧
    load_binary ptr lw bw fname bin BinaryType.BIN_TYPE_AUTO
      = (if (load_binary_lem ptr lw fname bin).1 = 0
         then load_binary_lem ptr lw fname bin
         else load_binary_bfd ptr bw fname (load_binary_lem ptr lw fname bin).2
                BinaryType.BIN_TYPE_AUTO) := by
  refine ⟨?_, ?_, ?_⟩
  · simp [load_binary]
  · simp [load_binary]
  · by_cases h : (load_binary_lem ptr lw fname bin).1 = 0
    · simp [load_binary, h]
    · simp [load_binary, h]

/-- C2: Counter-evidence for the freshly-loaded-bytes invariant.  On the
concrete AUTO scenario in which Backend A materializes one section, then
fails on the second section and rolls back, and Backend B then succeeds on
the same Binary, the overall load returns success, yet the returned Binary
still contains the rolled-back Section of Backend A with NULL bytes and
declared size 2 alongside the freshly loaded Backend B section.  The code
therefore returns a successful load containing a Section whose byte buffer
is null without any unload having happened. -/
theorem c2_partial_binary_on_auto_fallback :
    (load_binary 0 lw2 bw2 "t.elf" emptyBinary BinaryType.BIN_TYPE_AUTO).1 = 0 ∧
    ((load_binary 0 lw2 bw2 "t.elf" emptyBinary BinaryType.BIN_TYPE_AUTO).2.sections.map
      (fun s => s.bytes)) = [none, some [1, 2]] ∧
    ((load_binary 0 lw2 bw2 "t.elf" emptyBinary BinaryType.BIN_TYPE_AUTO).2.sections.map
      (fun s => s.size)) = [2, 2] := by
  refine ⟨?_, ?_, ?_⟩ <;> rfl

/-- C3: Rollback on section extraction failure.  For either backend, when
section loading fails (which happens exactly when a buffer allocation or a
content read fails for a retained section), the section-loading call returns
-1 and every section of the attempted Binary has NULL bytes when the call
returns: every buffer allocated so far has been freed. -/
theorem c3_section_rollback (ptr : Nat) (obj : Elfobj) (hb : Bfd) (bin : Binary) :
    ((load_sections_lem ptr obj bin).1 ≠ 0 →
       (load_sections_lem ptr obj bin).1 = -1 ∧
       ∀ s ∈ (load_sections_lem ptr obj bin).2.sections, s.bytes = none) ∧
    ((lemRetainedSecs (if obj.hasShdrs then obj.sections else [])).any
        (fun ls => !ls.allocOk) = true →
       (load_sections_lem ptr obj bin).1 = -1) ∧
    ((load_sections_bfd ptr hb bin).1 ≠ 0 →
       (load_sections_bfd ptr hb bin).1 = -1 ∧
       ∀ s ∈ (load_sections_bfd ptr hb bin).2.sections, s.bytes = none) ∧
    ((bfdRetainedSecs hb.sections).any
        (fun bs => !bs.allocOk || !bs.readOk) = true →
       (load_sections_bfd ptr hb bin).1 = -1) := by
  refine ⟨?_, ?_, ?_, ?_⟩
  · intro hz
    rcases load_sections_lem_fst_cases ptr obj bin with hc | hc
    · exact absurd hc hz
    · exact ⟨hc, load_sections_lem_fail_none ptr obj bin hz⟩
  · intro ha
    by_cases hs : obj.hasShdrs = false
    · simp [hs, lemRetainedSecs] at ha
    · have hb2 : obj.hasShdrs = true := by
        cases hx : obj.hasShdrs
        · exact absurd hx hs
        · rfl
      rw [load_sections_lem, if_neg hs]
      apply lemSecLoop_any_fail
      simpa [hb2] using ha
  · intro hz
    rcases load_sections_bfd_fst_cases ptr hb bin with hc | hc
    · exact absurd hc hz
    · exact ⟨hc, load_sections_bfd_fail_none ptr hb bin hz⟩
  · intro ha
    exact bfdSecLoop_any_fail ptr hb.sections bin ha

/-- C3 witness: on the concrete object whose second retained section fails
to allocate, the libelfmaster section loader reports failure. -/
theorem c3_section_rollback_witness :
    (load_sections_lem 0 obj2 emptyBinary).1 = -1 :=
  ((c3_section_rollback 0 obj2 bfdHandle2 emptyBinary).1 (by decide)).1

/-- C4: Supported architectures.  A successful load by either backend always
leaves arch = X86 with bits 32 or 64; a machine outside the supported set
makes the backend fail with the Binary untouched except for the metadata
written before the architecture switch, and in particular with no section
and no symbol extracted. -/
theorem c4_architecture_support (ptr : Nat) (lw : LemWorld) (bw : BfdWorld)
    (fname : String) (bin : Binary) (obj : Elfobj) (hb : Bfd) (ty : BinaryType) :
    ((load_binary_lem ptr lw fname bin).1 = 0 →
       (load_binary_lem ptr lw fname bin).2.arch = BinaryArch.ARCH_X86 ∧
       ((load_binary_lem ptr lw fname bin).2.bits = 32 ∨
        (load_binary_lem ptr lw fname bin).2.bits = 64)) ∧
    (lw.openResult = some obj → obj.arch = ElfArch.unsupported →
       load_binary_lem ptr lw fname bin
         = (-1, { bin with
                  filename := fname, type := BinaryType.BIN_TYPE_ELF,
                  entry := obj.entry, type_str := "unknown" })) ∧
    ((load_binary_bfd ptr bw fname bin ty).1 = 0 →
       (load_binary_bfd ptr bw fname bin ty).2.arch = BinaryArch.ARCH_X86 ∧
       ((load_binary_bfd ptr bw fname bin ty).2.bits = 32 ∨
        (load_binary_bfd ptr bw fname bin ty).2.bits = 64)) ∧
    (open_bfd bw = some hb →
       (hb.flavour = BfdFlavour.elf ∨ hb.flavour = BfdFlavour.coff) →
       hb.mach ≠ bfd_mach_i386_i386 → hb.mach ≠ bfd_mach_x86_64 →
       (load_binary_bfd ptr bw fname bin ty).1 = -1 ∧
       (load_binary_bfd ptr bw fname bin ty).2.sections = bin.sections ∧
       (load_binary_bfd ptr bw fname bin ty).2.symbols = bin.symbols) := by
  refine ⟨?_, ?_, ?_, ?_⟩
  · intro hz
    rcases hob : lw.openResult with _ | obj2x
    · rw [load_binary_lem_open_fail ptr lw fname bin hob] at hz
      simp at hz
    · cases harch : obj2x.arch with
      | i386 =>
        rw [load_binary_lem_some_i386 ptr lw fname bin obj2x hob harch]
        exact ⟨(lemAfterArch_frame ptr obj2x _).1, Or.inl (lemAfterArch_frame ptr obj2x _).2.1⟩
      | x64 =>
        rw [load_binary_lem_some_x64 ptr lw fname bin obj2x hob harch]
        exact ⟨(lemAfterArch_frame ptr obj2x _).1, Or.inr (lemAfterArch_frame ptr obj2x _).2.1⟩
      | unsupported =>
        rw [load_binary_lem_some_unsupported ptr lw fname bin obj2x hob harch] at hz
        simp at hz
  · intro hob ha
    exact load_binary_lem_some_unsupported ptr lw fname bin obj hob ha
  · intro hz
    rcases hob : open_bfd bw with _ | hh
    · rw [load_binary_bfd_open_fail ptr bw fname bin ty hob] at hz
      simp at hz
    · cases hf : hh.flavour with
      | elf =>
        rw [load_binary_bfd_elf ptr bw fname bin ty hh hob hf] at hz ⊢
        by_cases hm1 : hh.mach = bfd_mach_i386_i386
        · rw [bfdAfterType_i386 ptr hh _ hm1]
          exact ⟨(bfdAfterArch_frame ptr hh _).1, Or.inl (bfdAfterArch_frame ptr hh _).2.1⟩
        · by_cases hm2 : hh.mach = bfd_mach_x86_64
          · rw [bfdAfterType_x64 ptr hh _ hm1 hm2]
            exact ⟨(bfdAfterArch_frame ptr hh _).1, Or.inr (bfdAfterArch_frame ptr hh _).2.1⟩
          · rw [bfdAfterType_badmach ptr hh _ hm1 hm2] at hz
            simp at hz
      | coff =>
        rw [load_binary_bfd_coff ptr bw fname bin ty hh hob hf] at hz ⊢
        by_cases hm1 : hh.mach = bfd_mach_i386_i386
        · rw [bfdAfterType_i386 ptr hh _ hm1]
          exact ⟨(bfdAfterArch_frame ptr hh _).1, Or.inl (bfdAfterArch_frame ptr hh _).2.1⟩
        · by_cases hm2 : hh.mach = bfd_mach_x86_64
          · rw [bfdAfterType_x64 ptr hh _ hm1 hm2]
            exact ⟨(bfdAfterArch_frame ptr hh _).1, Or.inr (bfdAfterArch_frame ptr hh _).2.1⟩
          · rw [bfdAfterType_badmach ptr hh _ hm1 hm2] at hz
            simp at hz
      | unknown => simp [load_binary_bfd, hob, hf] at hz
      | other => simp [load_binary_bfd, hob, hf] at hz
  · intro hob hfl hm1 hm2
    rcases hfl with hf | hf
    · rw [load_binary_bfd_elf ptr bw fname bin ty hb hob hf,
          bfdAfterType_badmach ptr hb _ hm1 hm2]
      exact ⟨rfl, rfl, rfl⟩
    · rw [load_binary_bfd_coff ptr bw fname bin ty hb hob hf,
          bfdAfterType_badmach ptr hb _ hm1 hm2]
      exact ⟨rfl, rfl, rfl⟩

/-- C4 witness: the unsupported libelfmaster machine makes load_binary_lem
fail with only metadata written, and the unsupported BFD machine makes
load_binary_bfd fail. -/
theorem c4_architecture_support_witness :
    load_binary_lem 0 lwU "u" emptyBinary
      = (-1, { emptyBinary with
               filename := "u", type := BinaryType.BIN_TYPE_ELF,
               entry := objU.entry, type_str := "unknown" }) ∧
    (load_binary_bfd 0 bwU "u" emptyBinary BinaryType.BIN_TYPE_AUTO).1 = -1 := by
  have h := c4_architecture_support 0 lwU bwU "u" emptyBinary objU bfdHandleU
    BinaryType.BIN_TYPE_AUTO
  refine ⟨h.2.1 rfl rfl, ?_⟩
  exact (h.2.2.2 rfl (Or.inl rfl) (by decide) (by decide)).1

/-- C5: Symbol extraction.  Each libelfmaster symbol load always returns 0
and appends exactly the STT_FUNC entries of its table (nothing when the
table flag is absent), independently of the error flag of the iterator; a
successful BFD symbol load appends exactly the BSF_FUNCTION entries of the
canonicalized table, a failed one leaves the Binary untouched; and replacing
both symbol tables of either backend (content, flags or errors) never
changes the success or failure of the overall backend load. -/
theorem c5_symbol_extraction (obj : Elfobj) (bin : Binary) (st : BfdSymtabRead)
    (entries : List BfdSymbol) (ptr : Nat) (w : BfdWorld) (fname : String)
    (ty : BinaryType) (hs te hd de : Bool) (t d : List LemSymbol)
    (t1 d1 : BfdSymtabRead) :
    load_symbols_lem obj bin
      = (0, { bin with symbols := bin.symbols ++
          (if obj.hasSymtab then lemFuncSyms obj.symtab else []) }) ∧
    load_dynsym_lem obj bin
      = (0, { bin with symbols := bin.symbols ++
          (if obj.hasDynsym then lemFuncSyms obj.dynsym else []) }) ∧
    (st.canon = some entries → 0 < st.n → st.allocOk = true →
       load_symbols_bfd st bin
         = (0, { bin with symbols := bin.symbols ++ bfdFuncSyms entries }) ∧
       load_dynsym_bfd st bin
         = (0, { bin with symbols := bin.symbols ++ bfdFuncSyms entries })) ∧
    ((load_symbols_bfd st bin).1 = -1 → (load_symbols_bfd st bin).2 = bin) ∧
    ((load_dynsym_bfd st bin).1 = -1 → (load_dynsym_bfd st bin).2 = bin) ∧
    (load_binary_lem ptr ⟨some (setLemSymtabs obj hs t te hd d de)⟩ fname bin).1
      = (load_binary_lem ptr ⟨some obj⟩ fname bin).1 ∧
    (load_binary_bfd ptr (setBfdSymtabs w t1 d1) fname bin ty).1
      = (load_binary_bfd ptr w fname bin ty).1 := by
  refine ⟨load_symbols_lem_eq obj bin, load_dynsym_lem_eq obj bin, ?_, ?_, ?_, ?_, ?_⟩
  · intro hc hn ha
    have h1 : ¬ st.n < 0 := by omega
    have h2 : ¬ st.n = 0 := by omega
    constructor
    · simp [load_symbols_bfd, h1, h2, ha, hc, bfdSymLoop_eq]
    · simp [load_dynsym_bfd, h1, h2, ha, hc, bfdSymLoop_eq]
  · intro hz
    by_cases h1 : st.n < 0
    · simp [load_symbols_bfd, h1]
    · by_cases h2 : st.n = 0
      · exfalso; simp [load_symbols_bfd, h1, h2] at hz
      · by_cases h3 : st.allocOk = false
        · simp [load_symbols_bfd, h1, h2, h3]
        · cases hcn : st.canon with
          | none => simp [load_symbols_bfd, h1, h2, h3, hcn]
          | some es => exfalso; simp [load_symbols_bfd, h1, h2, h3, hcn] at hz
  · intro hz
    by_cases h1 : st.n < 0
    · simp [load_dynsym_bfd, h1]
    · by_cases h2 : st.n = 0
      · exfalso; simp [load_dynsym_bfd, h1, h2] at hz
      · by_cases h3 : st.allocOk = false
        · simp [load_dynsym_bfd, h1, h2, h3]
        · cases hcn : st.canon with
          | none => simp [load_dynsym_bfd, h1, h2, h3, hcn]
          | some es => exfalso; simp [load_dynsym_bfd, h1, h2, h3, hcn] at hz
  · cases harch : obj.arch with
    | i386 =>
      rw [load_binary_lem_some_i386 ptr ⟨some (setLemSymtabs obj hs t te hd d de)⟩
            fname bin (setLemSymtabs obj hs t te hd d de) rfl harch,
          load_binary_lem_some_i386 ptr ⟨some obj⟩ fname bin obj rfl harch]
      exact lemAfterArch_fst_symtabs ptr obj hs t te hd d de _ _
    | x64 =>
      rw [load_binary_lem_some_x64 ptr ⟨some (setLemSymtabs obj hs t te hd d de)⟩
            fname bin (setLemSymtabs obj hs t te hd d de) rfl harch,
          load_binary_lem_some_x64 ptr ⟨some obj⟩ fname bin obj rfl harch]
      exact lemAfterArch_fst_symtabs ptr obj hs t te hd d de _ _
    | unsupported =>
      rw [load_binary_lem_some_unsupported ptr ⟨some (setLemSymtabs obj hs t te hd d de)⟩
            fname bin (setLemSymtabs obj hs t te hd d de) rfl harch,
          load_binary_lem_some_unsupported ptr ⟨some obj⟩ fname bin obj rfl harch]
  · rcases hob : open_bfd w with _ | hh
    · have hobm : open_bfd (setBfdSymtabs w t1 d1) = none := by
        rw [open_bfd_setBfdSymtabs, hob]; rfl
      rw [load_binary_bfd_open_fail ptr (setBfdSymtabs w t1 d1) fname bin ty hobm,
          load_binary_bfd_open_fail ptr w fname bin ty hob]
    · have hobm : open_bfd (setBfdSymtabs w t1 d1)
          = some { hh with symtab := t1, dynsym := d1 } := by
        rw [open_bfd_setBfdSymtabs, hob]; rfl
      cases hf : hh.flavour with
      | elf =>
        rw [load_binary_bfd_elf ptr (setBfdSymtabs w t1 d1) fname bin ty _ hobm hf,
            load_binary_bfd_elf ptr w fname bin ty hh hob hf]
        exact bfdAfterType_fst_symtabs ptr hh t1 d1 _ _
      | coff =>
        rw [load_binary_bfd_coff ptr (setBfdSymtabs w t1 d1) fname bin ty _ hobm hf,
            load_binary_bfd_coff ptr w fname bin ty hh hob hf]
        exact bfdAfterType_fst_symtabs ptr hh t1 d1 _ _
      | unknown => simp [load_binary_bfd, hobm, hob, hf]
      | other => simp [load_binary_bfd, hobm, hob, hf]

/-- C5 witness: a successful BFD symbol-table read on a table holding one
function and one non-function entry appends exactly the function entry. -/
theorem c5_symbol_extraction_witness :
    load_symbols_bfd stW emptyBinary
      = (0, { emptyBinary with
              symbols := emptyBinary.symbols ++ bfdFuncSyms [bfdSymF, bfdSymD] }) := by
  have h := c5_symbol_extraction obj10 emptyBinary stW [bfdSymF, bfdSymD] 0 bw2 "f"
    BinaryType.BIN_TYPE_AUTO false false false false [] [] stEmpty stEmpty
  exact (h.2.2.1 rfl (by decide) rfl).1

/-- C6: Section classification.  On success each backend appends exactly the
retained source sections in order: libelfmaster retains a section when it is
not SHT_NOBITS and is executable (CODE) or, failing that, allocated (DATA);
BFD retains a section when it is flagged SEC_CODE (CODE) or, failing that,
SEC_DATA (DATA); everything else is skipped, so the number of materialized
sections never exceeds the number of executable-or-allocated sections with
backing bytes in the source file. -/
theorem c6_section_classification (ptr : Nat) (obj : Elfobj) (hb : Bfd) (bin : Binary) :
    ((load_sections_lem ptr obj bin).1 = 0 →
       (load_sections_lem ptr obj bin).2.sections
         = bin.sections ++
           (lemRetainedSecs (if obj.hasShdrs then obj.sections else [])).map (mkLemSec ptr)) ∧
    (∀ ls ∈ lemRetainedSecs obj.sections,
       ls.stype ≠ SHT_NOBITS ∧ lemSecType ls ≠ SectionType.SEC_TYPE_NONE) ∧
    (∀ ls : LemSection, Nat.land ls.flags SHF_EXECINSTR ≠ 0 →
       lemSecType ls = SectionType.SEC_TYPE_CODE) ∧
    (∀ ls : LemSection, Nat.land ls.flags SHF_EXECINSTR = 0 →
       Nat.land ls.flags SHF_ALLOC ≠ 0 → lemSecType ls = SectionType.SEC_TYPE_DATA) ∧
    (lemRetainedSecs obj.sections).length ≤
      (obj.sections.filter (fun ls => decide (ls.stype ≠ SHT_NOBITS ∧
        (Nat.land ls.flags SHF_EXECINSTR ≠ 0 ∨ Nat.land ls.flags SHF_ALLOC ≠ 0)))).length ∧
    ((load_sections_bfd ptr hb bin).1 = 0 →
       (load_sections_bfd ptr hb bin).2.sections
         = bin.sections ++ (bfdRetainedSecs hb.sections).map (mkBfdSec ptr)) ∧
    (∀ bs : BfdSection, Nat.land bs.flags SEC_CODE ≠ 0 →
       bfdSecType bs = SectionType.SEC_TYPE_CODE) ∧
    (∀ bs : BfdSection, Nat.land bs.flags SEC_CODE = 0 →
       Nat.land bs.flags SEC_DATA ≠ 0 → bfdSecType bs = SectionType.SEC_TYPE_DATA) ∧
    (bfdRetainedSecs hb.sections).length ≤
      (hb.sections.filter (fun bs => decide (Nat.land bs.flags SEC_CODE ≠ 0 ∨
        Nat.land bs.flags SEC_DATA ≠ 0))).length := by
  refine ⟨?_, ?_, ?_, ?_, ?_, ?_, ?_, ?_, ?_⟩
  · intro hz
    rw [load_sections_lem_succ ptr obj bin hz]
  · intro ls hmem
    simp only [lemRetainedSecs, List.mem_filter, decide_eq_true_eq] at hmem
    exact hmem.2
  · intro ls hex
    simp [lemSecType, hex]
  · intro ls h1 h2
    simp [lemSecType, h1, h2]
  · apply le_of_eq
    congr 1
    unfold lemRetainedSecs
    apply List.filter_congr
    intro x _
    simp only [decide_eq_decide]
    exact and_congr Iff.rfl (lemSecType_ne_none_iff x)
  · intro hz
    rw [load_sections_bfd_succ ptr hb bin hz]
  · intro bs hex
    simp [bfdSecType, hex]
  · intro bs h1 h2
    simp [bfdSecType, h1, h2]
  · apply le_of_eq
    congr 1
    unfold bfdRetainedSecs
    apply List.filter_congr
    intro x _
    simp only [decide_eq_decide]
    exact bfdSecType_ne_none_iff x

/-- C6 witness: on a concrete object with one executable, one NOBITS and one
unflagged section, a successful libelfmaster section load appends exactly
the retained sections. -/
theorem c6_section_classification_witness :
    (load_sections_lem 0 objOk emptyBinary).2.sections
      = emptyBinary.sections ++
        (lemRetainedSecs (if objOk.hasShdrs then objOk.sections else [])).map (mkLemSec 0) :=
  (c6_section_classification 0 objOk bfdHandle2 emptyBinary).1 (by decide)

/-- C7: unload_binary is idempotent: after one call every section byte
buffer is null, and a second call changes nothing. -/
theorem c7_unload_idempotent (bin : Binary) :
    (∀ s ∈ (unload_binary bin).sections, s.bytes = none) ∧
    unload_binary (unload_binary bin) = unload_binary bin := by
  constructor
  · exact releaseSections_bytes bin.sections
  · unfold unload_binary
    simp [releaseSections_idem]

/-- C8: unload_binary modifies only the section byte buffers: every other
field of the Binary, the count of sections and symbols, and every Section
metadata field (back pointer, name, type, vma, size) are unchanged. -/
theorem c8_unload_frame (bin : Binary) :
    (unload_binary bin).filename = bin.filename ∧
    (unload_binary bin).type = bin.type ∧
    (unload_binary bin).type_str = bin.type_str ∧
    (unload_binary bin).entry = bin.entry ∧
    (unload_binary bin).arch = bin.arch ∧
    (unload_binary bin).arch_str = bin.arch_str ∧
    (unload_binary bin).bits = bin.bits ∧
    (unload_binary bin).symbols = bin.symbols ∧
    (unload_binary bin).sections.length = bin.sections.length ∧
    (unload_binary bin).sections.map secMeta = bin.sections.map secMeta :=
  ⟨rfl, rfl, rfl, rfl, rfl, rfl, rfl, rfl,
    releaseSections_length bin.sections, releaseSections_meta bin.sections⟩

/-- C9: Nothing resets the Binary between the two backend attempts under
hint AUTO.  When Backend A opens the object, has a supported architecture,
then fails (necessarily in section extraction), and Backend B afterwards
succeeds, the overall load succeeds and: the Binary produced by the failed
Backend A attempt already holds the function symbols Backend A appended; the
final symbol sequence extends that sequence (Backend A symbols followed by
Backend B ones); the final section sequence extends the rolled-back Backend
A section sequence, whose sections all have null bytes. -/
theorem c9_no_reset_between_backends (ptr : Nat) (lw : LemWorld) (bw : BfdWorld)
    (fname : String) (bin : Binary) (obj : Elfobj)
    (hopen : lw.openResult = some obj)
    (harch : obj.arch = ElfArch.i386 ∨ obj.arch = ElfArch.x64)
    (hfail : (load_binary_lem ptr lw fname bin).1 ≠ 0)
    (hbfd : (load_binary_bfd ptr bw fname (load_binary_lem ptr lw fname bin).2
      BinaryType.BIN_TYPE_AUTO).1 = 0) :
    (load_binary ptr lw bw fname bin BinaryType.BIN_TYPE_AUTO).1 = 0 ∧
    (load_binary_lem ptr lw fname bin).2.symbols
      = bin.symbols ++ (if obj.hasSymtab then lemFuncSyms obj.symtab else [])
          ++ (if obj.hasDynsym then lemFuncSyms obj.dynsym else []) ∧
    (∃ newSyms, (load_binary ptr lw bw fname bin BinaryType.BIN_TYPE_AUTO).2.symbols
        = (load_binary_lem ptr lw fname bin).2.symbols ++ newSyms) ∧
    (∃ newSecs, (load_binary ptr lw bw fname bin BinaryType.BIN_TYPE_AUTO).2.sections
        = (load_binary_lem ptr lw fname bin).2.sections ++ newSecs) ∧
    (∀ s ∈ (load_binary_lem ptr lw fname bin).2.sections, s.bytes = none) := by
  have hd := load_binary_auto_fail ptr lw bw fname bin hfail
  refine ⟨?_, ?_, ?_, ?_, ?_⟩
  · rw [hd]; exact hbfd
  · rcases harch with ha | ha
    · rw [load_binary_lem_some_i386 ptr lw fname bin obj hopen ha,
          lemAfterArch_symbols]
    · rw [load_binary_lem_some_x64 ptr lw fname bin obj hopen ha,
          lemAfterArch_symbols]
  · rw [hd]
    obtain ⟨ss, ys, hsec, hsym⟩ := load_binary_bfd_success_extends ptr bw fname
      (load_binary_lem ptr lw fname bin).2 BinaryType.BIN_TYPE_AUTO hbfd
    exact ⟨ys, hsym⟩
  · rw [hd]
    obtain ⟨ss, ys, hsec, hsym⟩ := load_binary_bfd_success_extends ptr bw fname
      (load_binary_lem ptr lw fname bin).2 BinaryType.BIN_TYPE_AUTO hbfd
    exact ⟨ss, hsec⟩
  · rcases harch with ha | ha
    · rw [load_binary_lem_some_i386 ptr lw fname bin obj hopen ha] at hfail ⊢
      exact (lemAfterArch_fail ptr obj _ hfail).2
    · rw [load_binary_lem_some_x64 ptr lw fname bin obj hopen ha] at hfail ⊢
      exact (lemAfterArch_fail ptr obj _ hfail).2

/-- C9 witness: the concrete AUTO scenario (Backend A appends one symbol and
one section, fails on the second section, Backend B succeeds) satisfies all
the hypotheses and the overall load succeeds. -/
theorem c9_no_reset_between_backends_witness :
    (load_binary 0 lw2 bw2 "t.elf" emptyBinary BinaryType.BIN_TYPE_AUTO).1 = 0 :=
  (c9_no_reset_between_backends 0 lw2 bw2 "t.elf" emptyBinary obj2 rfl (Or.inl rfl)
    (by decide) (by decide)).1

/-- C10: A successful load may return a Binary with an empty section
sequence: on an object whose section-headers flag is absent, the section
loader returns success immediately without materializing anything, and the
whole AUTO load succeeds with Binary.sections empty. -/
theorem c10_success_with_empty_sections :
    (load_binary 0 lw10 bw2 "a.elf" emptyBinary BinaryType.BIN_TYPE_AUTO).1 = 0 ∧
    (load_binary 0 lw10 bw2 "a.elf" emptyBinary BinaryType.BIN_TYPE_AUTO).2.sections = [] ∧
    load_sections_lem 0 obj10 emptyBinary = (0, emptyBinary) := by
  refine ⟨?_, ?_, ?_⟩ <;> rfl

end Loader
